import Mathlib

/-!
Verification of the genesis-bootstrap and priority-transactor core of
electroneum-sc against its natural-language specification.

The Go sources embedded here:
- `core/genesis.go`: `GenesisAlloc.flush`, `Genesis.ToBlock`, `Genesis.Commit`,
  `SetupGenesisBlockWithOverride`, `Genesis.configOrDefault`;
- `core/types/priority_tx.go`: the `PriorityTx` data type, `copy` and the
  signature accessors;
- the priority-transactor registry file: `GetPriorityTransactors`,
  `getPriorityTransactorByKey`.

Modelling conventions: hashes and addresses are `Nat` (the all-zero hash is
`0`), big integers are `Int`, byte strings are `List Nat`, Go maps are
association lists, and the external collaborators that live outside the
given sources (persistent store primitives, the params package constants
and config methods, the ABI codec, the EVM) are embedded as explicit data
or as function-valued environment records quantified in the theorems.
-/

namespace ElectroneumSC

/-! ### Association lists (the embedding of Go maps) -/

/-- Lookup in an association list, first match wins. -/
def alookup {β : Type} (k : Nat) : List (Nat × β) → Option β
  | [] => none
  | (k', v) :: t => if k' = k then some v else alookup k t

/-- Map-style insert: replace the binding of `k` if present, else append. -/
def ainsert {β : Type} (k : Nat) (v : β) : List (Nat × β) → List (Nat × β)
  | [] => [(k, v)]
  | (k', v') :: t => if k' = k then (k, v) :: t else (k', v') :: ainsert k v t

theorem alookup_ainsert_self {β : Type} (k : Nat) (v : β) (l : List (Nat × β)) :
    alookup k (ainsert k v l) = some v := by
  induction l with
  | nil => simp [ainsert, alookup]
  | cons p t ih =>
    by_cases h : p.1 = k
    · simp [ainsert, alookup, h]
    · simp [ainsert, alookup, h, ih]

theorem alookup_ainsert_ne {β : Type} {k k' : Nat} (hk : k' ≠ k) (v : β)
    (l : List (Nat × β)) : alookup k (ainsert k' v l) = alookup k l := by
  induction l with
  | nil => simp [ainsert, alookup, hk]
  | cons p t ih =>
    by_cases h : p.1 = k'
    · simp [ainsert, alookup, h, hk]
    · by_cases h2 : p.1 = k
      · simp [ainsert, alookup, h, h2, Ne.symm hk]
      · simp [ainsert, alookup, h, h2, ih]

theorem ainsert_notMem {β : Type} {k : Nat} {l : List (Nat × β)}
    (h : k ∉ l.map Prod.fst) (v : β) : ainsert k v l = l ++ [(k, v)] := by
  induction l with
  | nil => simp [ainsert]
  | cons p t ih =>
    simp only [List.map_cons, List.mem_cons] at h
    push_neg at h
    simp [ainsert, Ne.symm h.1, ih h.2]

theorem alookup_append {β : Type} (k : Nat) (l₁ l₂ : List (Nat × β)) :
    alookup k (l₁ ++ l₂) =
      match alookup k l₁ with
      | some v => some v
      | none => alookup k l₂ := by
  induction l₁ with
  | nil => simp [alookup]
  | cons p t ih =>
    by_cases h : p.1 = k
    · simp [alookup, h]
    · simp [alookup, h, ih]

theorem alookup_eq_none_of_notMem {β : Type} {k : Nat} {l : List (Nat × β)}
    (h : k ∉ l.map Prod.fst) : alookup k l = none := by
  induction l with
  | nil => rfl
  | cons p t ih =>
    simp only [List.map_cons, List.mem_cons] at h
    push_neg at h
    simp [alookup, Ne.symm h.1, ih h.2]

/-- Under distinct keys, lookup does not depend on the list order:
reversing the list preserves every lookup. -/
theorem alookup_reverse {β : Type} {l : List (Nat × β)}
    (h : (l.map Prod.fst).Nodup) (k : Nat) :
    alookup k l.reverse = alookup k l := by
  induction l with
  | nil => rfl
  | cons p t ih =>
    simp only [List.map_cons, List.nodup_cons] at h
    by_cases hk : p.1 = k
    · have hnone : alookup k t.reverse = none := by
        apply alookup_eq_none_of_notMem
        intro hmem
        exact h.1 (by simpa [hk, List.map_reverse] using hmem)
      simp [List.reverse_cons, alookup_append, hnone, alookup, hk]
    · rw [List.reverse_cons, alookup_append, ih h.2]
      cases h' : alookup k t <;> simp [alookup, hk, h']

/-! ### Genesis state model (`GenesisAlloc.flush`)

`state.New / statedb.Commit / TrieDB().Commit` are external collaborators:
the state trie is embedded as an association list from address to account
state, and the committed root as a canonical (key-sorted) encoding of the
final state, which is exactly the canonicity guarantee of a Merkle trie. -/

/-- `GenesisAccount` of core/genesis.go (the test-only private key is
irrelevant to state and omitted). -/
structure GenesisAccount where
  code : List Nat
  storage : List (Nat × Nat)
  balance : Int
  nonce : Nat
deriving DecidableEq

/-- The per-address account record held by the state trie. -/
structure AccountState where
  balance : Int
  nonce : Nat
  code : List Nat
  storage : List (Nat × Nat)
deriving DecidableEq

def emptyAccountState : AccountState := ⟨0, 0, [], []⟩

/-- Effect of one allocation entry on the account it addresses:
`AddBalance`, `SetCode`, `SetNonce`, then `SetState` for each storage slot
(the loop body of `GenesisAlloc.flush`). -/
def applyAccountEntry (prev : AccountState) (a : GenesisAccount) : AccountState :=
  { balance := prev.balance + a.balance
    nonce := a.nonce
    code := a.code
    storage := a.storage.foldl (fun m kv => ainsert kv.1 kv.2 m) prev.storage }

/-- One iteration of `GenesisAlloc.flush`'s range loop. -/
def applyGenesisAccount (s : List (Nat × AccountState)) (e : Nat × GenesisAccount) :
    List (Nat × AccountState) :=
  ainsert e.1 (applyAccountEntry ((alookup e.1 s).getD emptyAccountState) e.2) s

/-- The statedb produced by `GenesisAlloc.flush` on a fresh state, before
commit: the allocation entries applied in iteration order. -/
def flushState (alloc : List (Nat × GenesisAccount)) : List (Nat × AccountState) :=
  alloc.foldl applyGenesisAccount []

/-! Content encodings standing in for keccak hashing (external): any
deterministic function of the canonical content serves the claims. -/

def mixh (a b : Nat) : Nat := 37 * a + b + 1

def encList {α : Type} (f : α → Nat) (l : List α) : Nat :=
  l.foldl (fun acc x => mixh acc (f x)) 0

def encInt (i : Int) : Nat := if 0 ≤ i then 2 * i.toNat else 2 * (-i).toNat - 1

def encOptInt : Option Int → Nat
  | none => 0
  | some i => encInt i + 1

def encOptNat : Option Nat → Nat
  | none => 0
  | some n => n + 1

def encPairNat (p : Nat × Nat) : Nat := mixh p.1 p.2

def encAccountState (a : AccountState) : Nat :=
  mixh (mixh (encInt a.balance) a.nonce) (mixh (encList id a.code) (encList encPairNat a.storage))

/-- The root obtained by committing a statedb: the canonical, key-sorted
content commitment of the final state (a Merkle trie root is canonical in
the final key-value content, independent of insertion order). -/
def commitRoot (s : List (Nat × AccountState)) : Nat :=
  encList (fun k => mixh k (encAccountState ((alookup k s).getD emptyAccountState)))
    (List.insertionSort (· ≤ ·) (s.map Prod.fst))

/-- `GenesisAlloc.flush` on a fresh database: the state root it commits. -/
def flushRoot (alloc : List (Nat × GenesisAccount)) : Nat :=
  commitRoot (flushState alloc)

theorem alookup_applyGenesisAccount_self (s : List (Nat × AccountState))
    (e : Nat × GenesisAccount) :
    alookup e.1 (applyGenesisAccount s e) =
      some (applyAccountEntry ((alookup e.1 s).getD emptyAccountState) e.2) :=
  alookup_ainsert_self _ _ _

theorem alookup_applyGenesisAccount_ne {k : Nat} (s : List (Nat × AccountState))
    {e : Nat × GenesisAccount} (h : e.1 ≠ k) :
    alookup k (applyGenesisAccount s e) = alookup k s :=
  alookup_ainsert_ne h _ _

/-- Lookup after the whole flush loop, starting from an arbitrary statedb,
under distinct allocation keys. -/
theorem alookup_foldl_applyGenesisAccount (l : List (Nat × GenesisAccount))
    (s : List (Nat × AccountState)) (hnd : (l.map Prod.fst).Nodup) (k : Nat) :
    alookup k (l.foldl applyGenesisAccount s) =
      match alookup k l with
      | some a => some (applyAccountEntry ((alookup k s).getD emptyAccountState) a)
      | none => alookup k s := by
  induction l generalizing s with
  | nil => simp [alookup]
  | cons e t ih =>
    simp only [List.map_cons, List.nodup_cons] at hnd
    rw [List.foldl_cons]
    by_cases hk : e.1 = k
    · have ht : alookup k t = none := by
        apply alookup_eq_none_of_notMem
        intro hm
        exact hnd.1 (hk ▸ hm)
      have h1 : alookup k (applyGenesisAccount s e) =
          some (applyAccountEntry ((alookup k s).getD emptyAccountState) e.2) := by
        rw [← hk]
        exact alookup_applyGenesisAccount_self s e
      rw [ih (applyGenesisAccount s e) hnd.2, ht, h1]
      simp [alookup, hk]
    · have h1 : alookup k (applyGenesisAccount s e) = alookup k s :=
        alookup_applyGenesisAccount_ne s hk
      rw [ih (applyGenesisAccount s e) hnd.2, h1]
      cases h2 : alookup k t <;> simp [alookup, hk, h2]

/-- The key list produced by the flush loop: start keys then allocation
keys, in iteration order. -/
theorem map_fst_foldl_applyGenesisAccount (l : List (Nat × GenesisAccount))
    (s : List (Nat × AccountState))
    (hd : ∀ k ∈ l.map Prod.fst, k ∉ s.map Prod.fst)
    (hnd : (l.map Prod.fst).Nodup) :
    (l.foldl applyGenesisAccount s).map Prod.fst = s.map Prod.fst ++ l.map Prod.fst := by
  induction l generalizing s with
  | nil => simp
  | cons e t ih =>
    simp only [List.map_cons, List.nodup_cons] at hnd
    have he : e.1 ∉ s.map Prod.fst := hd e.1 (by simp)
    have happly : applyGenesisAccount s e =
        s ++ [(e.1, applyAccountEntry ((alookup e.1 s).getD emptyAccountState) e.2)] :=
      ainsert_notMem he _
    rw [List.foldl_cons, ih (applyGenesisAccount s e)]
    · rw [happly]
      simp
    · intro k hk
      rw [happly]
      simp only [List.map_append, List.map_cons, List.map_nil, List.mem_append,
        List.mem_singleton]
      push_neg
      constructor
      · exact hd k (by simp [hk])
      · intro hke
        exact hnd.1 (hke ▸ hk)
    · exact hnd.2

theorem map_fst_flushState (l : List (Nat × GenesisAccount))
    (hnd : (l.map Prod.fst).Nodup) :
    (flushState l).map Prod.fst = l.map Prod.fst := by
  have := map_fst_foldl_applyGenesisAccount l [] (by simp) hnd
  simpa [flushState] using this

theorem alookup_flushState (l : List (Nat × GenesisAccount))
    (hnd : (l.map Prod.fst).Nodup) (k : Nat) :
    alookup k (flushState l) =
      (alookup k l).map (applyAccountEntry emptyAccountState) := by
  rw [flushState, alookup_foldl_applyGenesisAccount l [] hnd k]
  cases alookup k l <;> simp [alookup]

/-- Sorting is permutation-invariant: the canonical key order depends only
on the key multiset. -/
theorem insertionSort_eq_of_perm {A B : List Nat} (h : A.Perm B) :
    List.insertionSort (· ≤ ·) A = List.insertionSort (· ≤ ·) B :=
  List.eq_of_perm_of_sorted
    ((List.perm_insertionSort _ A).trans (h.trans (List.perm_insertionSort _ B).symm))
    (List.sorted_insertionSort _ A) (List.sorted_insertionSort _ B)

/-- Core of the determinism claim: flushing the allocation entries in
reversed iteration order commits the same state root. -/
theorem flushRoot_reverse (l : List (Nat × GenesisAccount))
    (hnd : (l.map Prod.fst).Nodup) :
    flushRoot l.reverse = flushRoot l := by
  have hndr : (l.reverse.map Prod.fst).Nodup := by
    rw [List.map_reverse]
    exact List.nodup_reverse.mpr hnd
  have hkeys : (flushState l.reverse).map Prod.fst = (l.map Prod.fst).reverse := by
    rw [map_fst_flushState l.reverse hndr, List.map_reverse]
  have hsort : List.insertionSort (· ≤ ·) ((flushState l.reverse).map Prod.fst) =
      List.insertionSort (· ≤ ·) ((flushState l).map Prod.fst) := by
    apply insertionSort_eq_of_perm
    rw [hkeys, map_fst_flushState l hnd]
    exact List.reverse_perm _
  have hfun : (fun k => mixh k (encAccountState
        ((alookup k (flushState l.reverse)).getD emptyAccountState))) =
      (fun k => mixh k (encAccountState
        ((alookup k (flushState l)).getD emptyAccountState))) := by
    funext k
    rw [alookup_flushState l.reverse hndr k, alookup_flushState l hnd k,
      alookup_reverse hnd k]
  rw [flushRoot, flushRoot, commitRoot, commitRoot, hsort, hfun]

/-! ### Chain configuration and genesis specification -/

/-- `params.ChainConfig`, reduced to the fields this core reads or writes:
the ArrowGlacier override target, the terminal total difficulty override
target, the London activation height (base-fee-market rule) and the Clique
(signer-list consensus) selector. `rest` abstracts the remaining fork
schedule so that distinct configurations stay distinguishable. -/
structure ChainConfig where
  arrowGlacierBlock : Option Int
  terminalTotalDifficulty : Option Int
  londonBlock : Option Nat
  clique : Option Nat
  rest : Nat
deriving DecidableEq

/-- Modelled from the spec: `params.ChainConfig.IsLondon` (params package,
not under src/) — the base-fee-market rule is active at height `n` iff the
London activation height is set and does not exceed `n`. -/
def ChainConfig.isLondon (c : ChainConfig) (n : Nat) : Bool :=
  match c.londonBlock with
  | some b => b ≤ n
  | none => false

/-- Modelled from the spec: protocol default configurations and well-known
genesis hashes of the public networks (params package, not under src/).
Only their identity and mutual distinctness matter to the claims. -/
def MainnetChainConfig : ChainConfig := ⟨none, none, some 0, none, 1⟩

def StagenetChainConfig : ChainConfig := ⟨none, none, some 0, none, 2⟩

def TestnetChainConfig : ChainConfig := ⟨none, none, some 0, none, 3⟩

def AllEthashProtocolChanges : ChainConfig := ⟨none, none, some 0, none, 4⟩

def MainnetGenesisHash : Nat := 901

def StagenetGenesisHash : Nat := 902

def TestnetGenesisHash : Nat := 903

/-- Modelled from the spec: protocol constants of the params and crypto
packages (not under src/). -/
def GenesisGasLimit : Nat := 4712388

def GenesisDifficulty : Int := 131072

def InitialBaseFee : Int := 1000000000

def MaxGasLimit : Nat := 9223372036854775807

def SignatureLength : Nat := 65

/-- `Genesis` of core/genesis.go: the declarative genesis specification.
The allocation table (a Go map) is embedded as an association list whose
order models the incidental map-iteration order. -/
structure Genesis where
  config : Option ChainConfig
  nonce : Nat
  timestamp : Nat
  extraData : List Nat
  gasLimit : Nat
  difficulty : Option Int
  mixhash : Nat
  coinbase : Nat
  alloc : List (Nat × GenesisAccount)
  number : Nat
  gasUsed : Nat
  parentHash : Nat
  baseFee : Option Int
deriving DecidableEq

/-- `types.Header`, reduced to the fields `Genesis.ToBlock` assembles. -/
structure Header where
  number : Nat
  nonce : Nat
  time : Nat
  parentHash : Nat
  extra : List Nat
  gasLimit : Nat
  gasUsed : Nat
  baseFee : Option Int
  difficulty : Option Int
  mixDigest : Nat
  coinbase : Nat
  root : Nat
deriving DecidableEq

/-- The header `Genesis.ToBlock` assembles around a given state root:
verbatim field transfer followed by the three defaulting rules, in source
order. -/
def buildHeader (g : Genesis) (root : Nat) : Header :=
  let head : Header :=
    { number := g.number
      nonce := g.nonce
      time := g.timestamp
      parentHash := g.parentHash
      extra := g.extraData
      gasLimit := g.gasLimit
      gasUsed := g.gasUsed
      baseFee := g.baseFee
      difficulty := g.difficulty
      mixDigest := g.mixhash
      coinbase := g.coinbase
      root := root }
  let head := if g.gasLimit = 0 then { head with gasLimit := GenesisGasLimit } else head
  let head :=
    if g.difficulty = none ∧ g.mixhash = 0 then
      { head with difficulty := some GenesisDifficulty }
    else head
  match g.config with
  | some cfg =>
    if cfg.isLondon 0 then { head with baseFee := some (g.baseFee.getD InitialBaseFee) }
    else head
  | none => head

/-- `Genesis.ToBlock(nil)`: materialize against a fresh in-memory database.
The produced block has an empty body, so it is identified with its header. -/
def Genesis.toBlock (g : Genesis) : Header :=
  buildHeader g (flushRoot g.alloc)

/-- The block (= header) content hash, standing in for keccak of the RLP
encoding: a deterministic function of every header field. -/
def blockHash (h : Header) : Nat :=
  mixh (mixh (mixh (mixh h.number h.nonce) (mixh h.time h.parentHash))
      (mixh (mixh (encList id h.extra) h.gasLimit) (mixh h.gasUsed (encOptInt h.baseFee))))
    (mixh (mixh (encOptInt h.difficulty) h.mixDigest) (mixh h.coinbase h.root))

/-! ### The persistent store and `Genesis.Commit` -/

/-- The persistent store (rawdb), one field per record family this core
reads or writes.  `stateRoots` is the state-trie section: the set of roots
whose tries have been committed (`state.New(root, db)` succeeds exactly
when the root is present).  The zero hash denotes absence where the source
compares against `common.Hash{}`. -/
structure DB where
  canonicalHashes : List (Nat × Nat)
  headers : List (Nat × Header)
  headerNumbers : List (Nat × Nat)
  stateRoots : List Nat
  genesisStates : List (Nat × List (Nat × GenesisAccount))
  tds : List (Nat × Option Int)
  receipts : List (Nat × Nat)
  headBlockHash : Nat
  headFastBlockHash : Nat
  headHeaderHash : Nat
  chainConfigs : List (Nat × ChainConfig)
deriving DecidableEq

/-- `rawdb.ReadCanonicalHash`: the zero hash when no record exists. -/
def readCanonicalHash (db : DB) (n : Nat) : Nat :=
  (alookup n db.canonicalHashes).getD 0

/-- `rawdb.ReadHeader` at a (hash, number) key; headers here are keyed by
hash, with the height recorded in `headerNumbers`. -/
def readHeader (db : DB) (hash : Nat) : Option Header :=
  alookup hash db.headers

/-- The state-trie write performed by `GenesisAlloc.flush` via
`statedb.Commit` and `TrieDB().Commit`: the committed root becomes
resolvable (content-addressed, hence idempotent). -/
def flushWrite (db : DB) (root : Nat) : DB :=
  if root ∈ db.stateRoots then db else { db with stateRoots := root :: db.stateRoots }

/-- `Genesis.ToBlock(db)`: materialize the block and flush the allocation
state into the given database. -/
def Genesis.toBlockWith (g : Genesis) (db : DB) : Header × DB :=
  (g.toBlock, flushWrite db (flushRoot g.alloc))

/-- The errors `Genesis.Commit` can surface.  Fork-order validation is the
external `params.CheckConfigForkOrder`; its error payload is opaque. -/
inductive CommitError where
  | invalidGenesisHeight
  | forkOrder (e : Nat)
  | missingSignerSet
deriving DecidableEq

/-- The external collaborators of the genesis/reconcile path that live in
the params package (not under src/): fork-order validation and the
compatibility check.  Theorems quantify over this record. -/
structure ConfigCompatError where
  rewindTo : Nat
deriving DecidableEq

structure ParamsEnv where
  checkConfigForkOrder : ChainConfig → Option Nat
  checkCompatible : ChainConfig → ChainConfig → Nat → Option ConfigCompatError

/-- `Genesis.Commit`: materialize (flushing state into `db`), run the three
structural checks, then persist the chain records in source order.  The
database is threaded explicitly; an error return carries the database as
the in-place mutations left it. -/
def Genesis.commit (env : ParamsEnv) (g : Genesis) (db : DB) :
    Except CommitError Header × DB :=
  let p := g.toBlockWith db
  let block := p.1
  let db1 := p.2
  if block.number ≠ 0 then (.error .invalidGenesisHeight, db1)
  else
    let config := g.config.getD AllEthashProtocolChanges
    match env.checkConfigForkOrder config with
    | some e => (.error (.forkOrder e), db1)
    | none =>
      if config.clique.isSome ∧ block.extra.length < 32 + SignatureLength then
        (.error .missingSignerSet, db1)
      else
        let h := blockHash block
        let db2 := { db1 with genesisStates := ainsert h g.alloc db1.genesisStates }
        let db3 := { db2 with tds := ainsert h block.difficulty db2.tds }
        let db4 := { db3 with headers := ainsert h block db3.headers,
                              headerNumbers := ainsert h block.number db3.headerNumbers }
        let db5 := { db4 with receipts := ainsert h block.number db4.receipts }
        let db6 := { db5 with canonicalHashes := ainsert block.number h db5.canonicalHashes }
        let db7 := { db6 with headBlockHash := h, headFastBlockHash := h,
                              headHeaderHash := h }
        let db8 := { db7 with chainConfigs := ainsert h config db7.chainConfigs }
        (.ok block, db8)

/-- `DefaultGenesisBlock` of core/genesis.go.  The extra-data is the
RLP-encoded IBFT validator-set structure; RLP encoding is external, so the
encoded bytes are abstracted as an opaque constant. -/
def mainnetGenesisExtraData : List Nat := [32, 1]

def DefaultGenesisBlock : Genesis :=
  { config := some MainnetChainConfig
    nonce := 0
    timestamp := 0
    extraData := mainnetGenesisExtraData
    gasLimit := 30000000
    difficulty := some 1
    mixhash := 0x63746963616c2062797a616e74696e65206661756c7420746f6c6572616e6365
    coinbase := 0
    alloc := [(0x7b56c6e6f53498e3e9332b180fe41f1add202f28,
      { code := [], storage := [], balance := 1000000000000000000000000000, nonce := 0 })]
    number := 0
    gasUsed := 0
    parentHash := 0
    baseFee := none }

/-- `Genesis.configOrDefault`: the supplied spec's configuration when a
spec is given (nil receiver check), else the protocol default for a
recognized genesis hash, else the maximally permissive fallback. -/
def configOrDefault (g : Option Genesis) (ghash : Nat) : Option ChainConfig :=
  match g with
  | some geno => geno.config
  | none =>
    some (if ghash = MainnetGenesisHash then MainnetChainConfig
      else if ghash = StagenetGenesisHash then StagenetChainConfig
      else if ghash = TestnetGenesisHash then TestnetChainConfig
      else AllEthashProtocolChanges)

/-- Application of the two explicit override parameters. -/
def overridden (c : ChainConfig) (overrideArrowGlacier overrideTTD : Option Int) :
    ChainConfig :=
  let c := match overrideArrowGlacier with
    | some v => { c with arrowGlacierBlock := some v }
    | none => c
  match overrideTTD with
  | some v => { c with terminalTotalDifficulty := some v }
  | none => c

/-- The error outcomes of `SetupGenesisBlockWithOverride`. -/
inductive SetupError where
  | noConfig
  | mismatch (stored new : Nat)
  | forkOrder (e : Nat)
  | missingHeadNumber
  | compat (e : ConfigCompatError)
  | commitFailed (e : CommitError)
deriving DecidableEq

/-- `SetupGenesisBlockWithOverride`, the bootstrap reconciler.  The result
mirrors the Go triple `(config, hash, error)` plus the database it leaves
behind; `none` models the nil-pointer crash on a stored canonical hash
whose genesis header record is missing. -/
def setupGenesisBlockWithOverride (env : ParamsEnv) (genesis : Option Genesis)
    (overrideArrowGlacier overrideTTD : Option Int) (db : DB) :
    Option ((Option ChainConfig × Nat × Option SetupError) × DB) :=
  if genesis.map Genesis.config = some none then
    some ((some AllEthashProtocolChanges, 0, some .noConfig), db)
  else
    let stored := readCanonicalHash db 0
    if stored = 0 then
      let g := genesis.getD DefaultGenesisBlock
      match Genesis.commit env g db with
      | (.error e, db') => some ((g.config, 0, some (.commitFailed e)), db')
      | (.ok block, db') => some ((g.config, blockHash block, none), db')
    else
      match readHeader db stored with
      | none => none
      | some header =>
        if header.root ∉ db.stateRoots then
          let g := genesis.getD DefaultGenesisBlock
          let hash := blockHash g.toBlock
          if hash ≠ stored then
            some ((g.config, hash, some (.mismatch stored hash)), db)
          else
            match Genesis.commit env g db with
            | (.error e, db') => some ((g.config, hash, some (.commitFailed e)), db')
            | (.ok block, db') => some ((g.config, blockHash block, none), db')
        else
          let mismatched : Option ((Option ChainConfig × Nat × Option SetupError) × DB) :=
            match genesis with
            | some g =>
              let hash := blockHash g.toBlock
              if hash ≠ stored then
                some ((g.config, hash, some (.mismatch stored hash)), db)
              else none
            | none => none
          match mismatched with
          | some r => some r
          | none =>
            match configOrDefault genesis stored with
            | none => none
            | some cfg0 =>
              let newcfg := overridden cfg0 overrideArrowGlacier overrideTTD
              match env.checkConfigForkOrder newcfg with
              | some e => some ((some newcfg, 0, some (.forkOrder e)), db)
              | none =>
                match alookup stored db.chainConfigs with
                | none =>
                  some ((some newcfg, stored, none),
                    { db with chainConfigs := ainsert stored newcfg db.chainConfigs })
                | some storedcfg =>
                  let newcfg2 :=
                    if genesis = none ∧ stored ≠ MainnetGenesisHash then
                      overridden storedcfg overrideArrowGlacier overrideTTD
                    else newcfg
                  match alookup db.headHeaderHash db.headerNumbers with
                  | none => some ((some newcfg2, stored, some .missingHeadNumber), db)
                  | some height =>
                    match env.checkCompatible storedcfg newcfg2 height with
                    | some cerr =>
                      if height ≠ 0 ∧ cerr.rewindTo ≠ 0 then
                        some ((some newcfg2, stored, some (.compat cerr)), db)
                      else
                        some ((some newcfg2, stored, none),
                          { db with chainConfigs := ainsert stored newcfg2 db.chainConfigs })
                    | none =>
                      some ((some newcfg2, stored, none),
                        { db with chainConfigs := ainsert stored newcfg2 db.chainConfigs })

/-! ### Priority transactor registry -/

/-- `common.PriorityTransactor`. -/
structure PriorityTransactor where
  entityName : String
  isGasPriceWaiver : Bool
deriving DecidableEq

/-- The decoded contract tuple
(`ETNPriorityTransactorsInterfaceTransactorMeta`); the hex public key and
its `HexToPublicKey` conversion collapse to the key itself. -/
structure TransactorMeta where
  publicKey : Nat
  isGasPriceWaiver : Bool
  name : String
deriving DecidableEq

/-- `common.PriorityTransactorMap`, keyed by public key. -/
abbrev PriorityTransactorMap := List (Nat × PriorityTransactor)

/-- The state/EVM view supplied by the caller: code lookup and the bounded
read-only call (caller ref, target address, input, gas). -/
structure EvmView where
  getCode : Nat → List Nat
  staticCall : Nat → Nat → List Nat → Nat → Except String (List Nat)

/-- The external ABI codec for the registry interface: packing of the two
methods and unpacking (including the `ConvertType` step) of their outputs. -/
structure RegistryAbi where
  packGetTransactors : List Nat
  packGetTransactorByKey : Nat → List Nat
  unpackGetTransactors : List Nat → Except String (List TransactorMeta)
  unpackGetTransactorByKey : List Nat → Except String TransactorMeta

/-- The per-height registry contract address
(`params.ChainConfig.GetPriorityTransactorsContractAddress`, external) plus
the ABI codec. -/
structure RegistryEnv where
  contractAddress : ChainConfig → Nat → Nat
  abi : RegistryAbi

/-- A static call as issued: (caller, target, input, gas). -/
structure RegistryCall where
  caller : Nat
  addr : Nat
  input : List Nat
  gas : Nat
deriving DecidableEq

/-- `GetPriorityTransactors` (resolveAll), returning the Go pair
`(result, err)` as an `Except` plus the trace of static calls issued. -/
def GetPriorityTransactors (env : RegistryEnv) (blockNumber : Nat)
    (config : ChainConfig) (evm : EvmView) :
    Except String PriorityTransactorMap × List RegistryCall :=
  let address := env.contractAddress config blockNumber
  let result : PriorityTransactorMap := []
  if address ≠ 0 then
    let byteCode := evm.getCode address
    if byteCode.length = 0 then (.ok result, [])
    else
      let input := env.abi.packGetTransactors
      let call : RegistryCall := ⟨address, address, input, MaxGasLimit⟩
      match evm.staticCall address address input MaxGasLimit with
      | .error e => (.error e, [call])
      | .ok output =>
        match env.abi.unpackGetTransactors output with
        | .error e => (.error e, [call])
        | .ok metas =>
          (.ok (metas.foldl
            (fun m t => ainsert t.publicKey ⟨t.name, t.isGasPriceWaiver⟩ m) result),
            [call])
  else (.ok result, [])

/-- `getPriorityTransactorByKey` (resolveOne), returning the Go pair
`(PriorityTransactor, bool)` plus the trace of static calls issued.  Note:
unlike `GetPriorityTransactors`, it has no deployed-code check. -/
def getPriorityTransactorByKey (env : RegistryEnv) (blockNumber : Nat)
    (publicKey : Nat) (config : ChainConfig) (evm : EvmView) :
    (PriorityTransactor × Bool) × List RegistryCall :=
  let address := env.contractAddress config blockNumber
  if address ≠ 0 then
    let input := env.abi.packGetTransactorByKey publicKey
    let call : RegistryCall := ⟨address, address, input, MaxGasLimit⟩
    match evm.staticCall address address input MaxGasLimit with
    | .error _ => ((⟨"", false⟩, false), [call])
    | .ok output =>
      match env.abi.unpackGetTransactorByKey output with
      | .error _ => ((⟨"", false⟩, false), [call])
      | .ok meta => ((⟨meta.name, meta.isGasPriceWaiver⟩, true), [call])
  else ((⟨"", false⟩, false), [])

/-! ### Priority transaction model

Go's mutable `*big.Int` pointers, byte-slice backing arrays and access-list
backing arrays are embedded as addresses into an explicit heap, so that
aliasing and mutation are expressible.  A `none` big-integer field is a nil
pointer. -/

inductive Cell where
  | intCell (i : Int)
  | bytesCell (b : List Nat)
  | accessListCell (a : List (Nat × List Nat))
deriving DecidableEq

abbrev Heap := List Cell

/-- `types.PriorityTx`: big-integer fields hold an optional heap address
(nil pointer = `none`); `data` and `accessList` hold the address of their
backing array.  `toAddr` embeds the `To` field, the optional destination address value (absence
means contract creation). -/
structure PriorityTx where
  chainID : Option Nat
  nonce : Nat
  gasTipCap : Option Nat
  gasFeeCap : Option Nat
  gas : Nat
  toAddr : Option Nat
  value : Option Nat
  data : Nat
  accessList : Nat
  v : Option Nat
  r : Option Nat
  s : Option Nat
  priorityV : Option Nat
  priorityR : Option Nat
  priorityS : Option Nat
deriving DecidableEq

/-- Dereference a big-integer cell (a fresh `new(big.Int)` is zero). -/
def derefInt (h : Heap) (a : Nat) : Int :=
  match List.get? (α := Cell) h a with
  | some (.intCell i) => i
  | _ => 0

def derefBytes (h : Heap) (a : Nat) : List Nat :=
  match List.get? (α := Cell) h a with
  | some (.bytesCell b) => b
  | _ => []

def derefAccessList (h : Heap) (a : Nat) : List (Nat × List Nat) :=
  match List.get? (α := Cell) h a with
  | some (.accessListCell l) => l
  | _ => []

/-- The observable value of an optional big-integer field. -/
def intVal (h : Heap) : Option Nat → Option Int
  | none => none
  | some a => some (derefInt h a)

/-- In-place mutation of a big-integer cell (e.g. `GasFeeCap.Set`). -/
def setIntCell (h : Heap) (a : Nat) (v : Int) : Heap :=
  List.set (α := Cell) h a (.intCell v)

/-- The value held by a freshly allocated big-integer cell of the copy:
`new(big.Int)` (zero) followed by `Set` from the source when the source
pointer is non-nil. -/
def copyVal (h : Heap) : Option Nat → Int
  | some a => derefInt h a
  | none => 0

/-- `PriorityTx.copy`: fresh backing array for payload and access list,
fresh zero-initialized numeric storage for every big-integer field, set
from the source value when the source pointer is non-nil. -/
def PriorityTx.copy (tx : PriorityTx) (h : Heap) : PriorityTx × Heap :=
  let n := h.length
  let h1 : Heap := h ++
    [.bytesCell (derefBytes h tx.data),
     .accessListCell (derefAccessList h tx.accessList),
     .intCell (copyVal h tx.value), .intCell (copyVal h tx.chainID),
     .intCell (copyVal h tx.gasTipCap), .intCell (copyVal h tx.gasFeeCap),
     .intCell (copyVal h tx.v), .intCell (copyVal h tx.r), .intCell (copyVal h tx.s),
     .intCell (copyVal h tx.priorityV), .intCell (copyVal h tx.priorityR),
     .intCell (copyVal h tx.priorityS)]
  ({ nonce := tx.nonce
     toAddr := tx.toAddr
     gas := tx.gas
     data := n
     accessList := n + 1
     value := some (n + 2)
     chainID := some (n + 3)
     gasTipCap := some (n + 4)
     gasFeeCap := some (n + 5)
     v := some (n + 6)
     r := some (n + 7)
     s := some (n + 8)
     priorityV := some (n + 9)
     priorityR := some (n + 10)
     priorityS := some (n + 11) }, h1)

/-- `rawSignatureValues`. -/
def PriorityTx.rawSignatureValues (tx : PriorityTx) :
    Option Nat × Option Nat × Option Nat :=
  (tx.v, tx.r, tx.s)

/-- `rawPrioritySignatureValues`. -/
def PriorityTx.rawPrioritySignatureValues (tx : PriorityTx) :
    Option Nat × Option Nat × Option Nat :=
  (tx.priorityV, tx.priorityR, tx.priorityS)

/-- `setSignatureValues`: assigns ChainID and the ordinary triple. -/
def PriorityTx.setSignatureValues (tx : PriorityTx) (chainID v r s : Option Nat) :
    PriorityTx :=
  { tx with chainID := chainID, v := v, r := r, s := s }

/-- `setPrioritySignatureValues`: assigns ChainID and the priority triple. -/
def PriorityTx.setPrioritySignatureValues (tx : PriorityTx) (chainID v r s : Option Nat) :
    PriorityTx :=
  { tx with chainID := chainID, priorityV := v, priorityR := r, priorityS := s }

/-! ### Generic lemmas about map-building folds (shared by the registry
and flush arguments) -/

theorem alookup_foldl_ainsert {α β : Type} (key : α → Nat) (val : α → β)
    (l : List α) (s : List (Nat × β)) (k : Nat) (hk : k ∉ l.map key) :
    alookup k (l.foldl (fun m t => ainsert (key t) (val t) m) s) = alookup k s := by
  induction l generalizing s with
  | nil => rfl
  | cons e t ih =>
    simp only [List.map_cons, List.mem_cons] at hk
    push_neg at hk
    rw [List.foldl_cons, ih _ hk.2, alookup_ainsert_ne (Ne.symm hk.1)]

theorem alookup_foldl_ainsert_mem {α β : Type} (key : α → Nat) (val : α → β)
    (l : List α) (s : List (Nat × β)) (hnd : (l.map key).Nodup)
    {t : α} (ht : t ∈ l) :
    alookup (key t) (l.foldl (fun m x => ainsert (key x) (val x) m) s) =
      some (val t) := by
  induction l generalizing s with
  | nil => cases ht
  | cons e r ih =>
    simp only [List.map_cons, List.nodup_cons] at hnd
    rcases List.mem_cons.mp ht with h | h
    · subst h
      rw [List.foldl_cons,
        alookup_foldl_ainsert key val r _ _ hnd.1,
        alookup_ainsert_self]
    · exact ih _ hnd.2 h

theorem map_fst_foldl_ainsert {α β : Type} (key : α → Nat) (val : α → β)
    (l : List α) (s : List (Nat × β))
    (hd : ∀ k ∈ l.map key, k ∉ s.map Prod.fst) (hnd : (l.map key).Nodup) :
    (l.foldl (fun m t => ainsert (key t) (val t) m) s).map Prod.fst =
      s.map Prod.fst ++ l.map key := by
  induction l generalizing s with
  | nil => simp
  | cons e t ih =>
    simp only [List.map_cons, List.nodup_cons] at hnd
    have he : key e ∉ s.map Prod.fst := hd (key e) (by simp)
    have happly : ainsert (key e) (val e) s = s ++ [(key e, val e)] :=
      ainsert_notMem he _
    rw [List.foldl_cons, ih (ainsert (key e) (val e) s)]
    · rw [happly]
      simp
    · intro k hk
      rw [happly]
      simp only [List.map_append, List.map_cons, List.map_nil, List.mem_append,
        List.mem_singleton]
      push_neg
      exact ⟨hd k (by simp [hk]), fun hke => hnd.1 (hke ▸ hk)⟩
    · exact hnd.2

/-! ### Claims about materialization -/

/-- C2: materialization is deterministic and order-independent — for any
genesis specification (its allocation table, being a Go map, has distinct
keys), applying the allocation entries in reversed order yields the same
committed state root and the same block hash; being Lean functions of the
spec's content, `flushRoot` and `blockHash ∘ toBlock` are pure functions
of it. -/
theorem materialize_deterministic (g : Genesis)
    (hnd : (g.alloc.map Prod.fst).Nodup) :
    flushRoot ({ g with alloc := g.alloc.reverse } : Genesis).alloc = flushRoot g.alloc ∧
    blockHash (Genesis.toBlock { g with alloc := g.alloc.reverse }) =
      blockHash (Genesis.toBlock g) := by
  have hroot : flushRoot g.alloc.reverse = flushRoot g.alloc := flushRoot_reverse g.alloc hnd
  refine ⟨hroot, ?_⟩
  show blockHash (buildHeader { g with alloc := g.alloc.reverse } (flushRoot g.alloc.reverse)) =
    blockHash (buildHeader g (flushRoot g.alloc))
  rw [hroot]
  rfl

/-- A two-entry allocation exercising genuine reordering. -/
def c2Genesis : Genesis :=
  { config := some MainnetChainConfig
    nonce := 0
    timestamp := 0
    extraData := []
    gasLimit := 5000
    difficulty := some 1
    mixhash := 0
    coinbase := 0
    alloc := [(10, { code := [1], storage := [(1, 2)], balance := 7, nonce := 0 }),
              (20, { code := [], storage := [], balance := 9, nonce := 3 })]
    number := 0
    gasUsed := 0
    parentHash := 0
    baseFee := none }

/-- C2 witness: determinism at a concrete two-entry allocation. -/
theorem materialize_deterministic_witness :
    flushRoot ({ c2Genesis with alloc := c2Genesis.alloc.reverse } : Genesis).alloc =
      flushRoot c2Genesis.alloc ∧
    blockHash (Genesis.toBlock { c2Genesis with alloc := c2Genesis.alloc.reverse }) =
      blockHash (Genesis.toBlock c2Genesis) :=
  materialize_deterministic c2Genesis (by decide)

/-- C8: the defaulting rules of `Genesis.ToBlock` — gas limit defaulted
when zero, difficulty defaulted when unset with zero mix hash, base fee
set to the spec's value or the protocol initial base fee exactly when the
configuration enables London at block zero, every other header field taken
verbatim from the spec. -/
theorem toBlock_defaulting (g : Genesis) :
    g.toBlock.gasLimit = (if g.gasLimit = 0 then GenesisGasLimit else g.gasLimit) ∧
    g.toBlock.difficulty =
      (if g.difficulty = none ∧ g.mixhash = 0 then some GenesisDifficulty
       else g.difficulty) ∧
    g.toBlock.baseFee =
      (match g.config with
       | some cfg =>
         if cfg.isLondon 0 then some (g.baseFee.getD InitialBaseFee) else g.baseFee
       | none => g.baseFee) ∧
    g.toBlock.number = g.number ∧
    g.toBlock.nonce = g.nonce ∧
    g.toBlock.time = g.timestamp ∧
    g.toBlock.parentHash = g.parentHash ∧
    g.toBlock.extra = g.extraData ∧
    g.toBlock.gasUsed = g.gasUsed ∧
    g.toBlock.mixDigest = g.mixhash ∧
    g.toBlock.coinbase = g.coinbase ∧
    g.toBlock.root = flushRoot g.alloc := by
  unfold Genesis.toBlock buildHeader
  cases hc : g.config with
  | none =>
    by_cases h1 : g.gasLimit = 0 <;> by_cases h2 : g.difficulty = none ∧ g.mixhash = 0
    · simp [if_pos h1, if_pos h2]
    · simp [if_pos h1, if_neg h2]
    · simp [if_neg h1, if_pos h2]
    · simp [if_neg h1, if_neg h2]
  | some cfg =>
    by_cases h1 : g.gasLimit = 0 <;> by_cases h2 : g.difficulty = none ∧ g.mixhash = 0 <;>
      by_cases h3 : cfg.isLondon 0
    · simp [if_pos h1, if_pos h2, if_pos h3]
    · simp [if_pos h1, if_pos h2, if_neg h3]
    · simp [if_pos h1, if_neg h2, if_pos h3]
    · simp [if_pos h1, if_neg h2, if_neg h3]
    · simp [if_neg h1, if_pos h2, if_pos h3]
    · simp [if_neg h1, if_pos h2, if_neg h3]
    · simp [if_neg h1, if_neg h2, if_pos h3]
    · simp [if_neg h1, if_neg h2, if_neg h3]

/-- C10: `setPrioritySignatureValues` overwrites ChainID and the priority
triple only, after which `rawPrioritySignatureValues` returns exactly the
assigned triple and the chain id accessor the assigned chain id; the
ordinary triple and every other field are untouched.  Symmetrically,
`setSignatureValues` overwrites ChainID and the ordinary triple only. -/
theorem setSignatureValues_frame (tx : PriorityTx) (c v r s : Option Nat) :
    (tx.setPrioritySignatureValues c v r s).chainID = c ∧
    (tx.setPrioritySignatureValues c v r s).rawPrioritySignatureValues = (v, r, s) ∧
    (tx.setPrioritySignatureValues c v r s).rawSignatureValues = tx.rawSignatureValues ∧
    (tx.setPrioritySignatureValues c v r s).nonce = tx.nonce ∧
    (tx.setPrioritySignatureValues c v r s).gasTipCap = tx.gasTipCap ∧
    (tx.setPrioritySignatureValues c v r s).gasFeeCap = tx.gasFeeCap ∧
    (tx.setPrioritySignatureValues c v r s).gas = tx.gas ∧
    (tx.setPrioritySignatureValues c v r s).toAddr = tx.toAddr ∧
    (tx.setPrioritySignatureValues c v r s).value = tx.value ∧
    (tx.setPrioritySignatureValues c v r s).data = tx.data ∧
    (tx.setPrioritySignatureValues c v r s).accessList = tx.accessList ∧
    (tx.setSignatureValues c v r s).chainID = c ∧
    (tx.setSignatureValues c v r s).rawSignatureValues = (v, r, s) ∧
    (tx.setSignatureValues c v r s).rawPrioritySignatureValues =
      tx.rawPrioritySignatureValues ∧
    (tx.setSignatureValues c v r s).nonce = tx.nonce ∧
    (tx.setSignatureValues c v r s).gasTipCap = tx.gasTipCap ∧
    (tx.setSignatureValues c v r s).gasFeeCap = tx.gasFeeCap ∧
    (tx.setSignatureValues c v r s).gas = tx.gas ∧
    (tx.setSignatureValues c v r s).toAddr = tx.toAddr ∧
    (tx.setSignatureValues c v r s).value = tx.value ∧
    (tx.setSignatureValues c v r s).data = tx.data ∧
    (tx.setSignatureValues c v r s).accessList = tx.accessList := by
  exact ⟨rfl, rfl, rfl, rfl, rfl, rfl, rfl, rfl, rfl, rfl, rfl, rfl, rfl, rfl, rfl,
    rfl, rfl, rfl, rfl, rfl, rfl, rfl⟩

/-! ### Claims about the priority transactor registry -/

/-- C7: `GetPriorityTransactors` returns an empty mapping and no error for
a zero registry address or absent deployed code; propagates call and
decode failures as errors; and on success builds the mapping with one
entry per decoded tuple, keyed by the tuple's public key and carrying its
entity name and gas-price-waiver flag. -/
theorem getPriorityTransactors_resolution (env : RegistryEnv) (bn : Nat)
    (config : ChainConfig) (evm : EvmView) :
    (env.contractAddress config bn = 0 →
      GetPriorityTransactors env bn config evm = (.ok [], [])) ∧
    (env.contractAddress config bn ≠ 0 →
      (evm.getCode (env.contractAddress config bn)).length = 0 →
      GetPriorityTransactors env bn config evm = (.ok [], [])) ∧
    (env.contractAddress config bn ≠ 0 →
      (evm.getCode (env.contractAddress config bn)).length ≠ 0 →
      (∀ e, evm.staticCall (env.contractAddress config bn)
          (env.contractAddress config bn) env.abi.packGetTransactors MaxGasLimit =
            .error e →
        GetPriorityTransactors env bn config evm =
          (.error e, [⟨env.contractAddress config bn, env.contractAddress config bn,
            env.abi.packGetTransactors, MaxGasLimit⟩])) ∧
      (∀ output, evm.staticCall (env.contractAddress config bn)
          (env.contractAddress config bn) env.abi.packGetTransactors MaxGasLimit =
            .ok output →
        (∀ e, env.abi.unpackGetTransactors output = .error e →
          GetPriorityTransactors env bn config evm =
            (.error e, [⟨env.contractAddress config bn, env.contractAddress config bn,
              env.abi.packGetTransactors, MaxGasLimit⟩])) ∧
        (∀ metas, env.abi.unpackGetTransactors output = .ok metas →
          GetPriorityTransactors env bn config evm =
            (.ok (metas.foldl
              (fun m t => ainsert t.publicKey ⟨t.name, t.isGasPriceWaiver⟩ m) []),
             [⟨env.contractAddress config bn, env.contractAddress config bn,
               env.abi.packGetTransactors, MaxGasLimit⟩]) ∧
          ((metas.map TransactorMeta.publicKey).Nodup →
            (metas.foldl
                (fun m t => ainsert t.publicKey ⟨t.name, t.isGasPriceWaiver⟩ m)
                ([] : PriorityTransactorMap)).map Prod.fst =
              metas.map TransactorMeta.publicKey ∧
            ∀ t ∈ metas, alookup t.publicKey
              (metas.foldl
                (fun m t => ainsert t.publicKey ⟨t.name, t.isGasPriceWaiver⟩ m)
                ([] : PriorityTransactorMap)) =
              some ⟨t.name, t.isGasPriceWaiver⟩)))) := by
  refine ⟨?_, ?_, ?_⟩
  · intro h
    simp [GetPriorityTransactors, h]
  · intro h hcode
    simp [GetPriorityTransactors, h, hcode]
  · intro h hcode
    refine ⟨?_, ?_⟩
    · intro e he
      simp [GetPriorityTransactors, h, hcode, he]
    · intro output hout
      refine ⟨?_, ?_⟩
      · intro e he
        simp [GetPriorityTransactors, h, hcode, hout, he]
      · intro metas hmetas
        refine ⟨?_, ?_⟩
        · simp [GetPriorityTransactors, h, hcode, hout, hmetas]
        · intro hnd
          refine ⟨?_, ?_⟩
          · have := map_fst_foldl_ainsert (fun t : TransactorMeta => t.publicKey)
              (fun t => (⟨t.name, t.isGasPriceWaiver⟩ : PriorityTransactor)) metas []
              (by simp) hnd
            simpa using this
          · intro t ht
            exact alookup_foldl_ainsert_mem (fun t : TransactorMeta => t.publicKey)
              (fun t => (⟨t.name, t.isGasPriceWaiver⟩ : PriorityTransactor)) metas []
              hnd ht

/-- A registry environment whose contract decodes to the two tuples
("Alice", waiver) and ("Bob", no waiver). -/
def c7Env : RegistryEnv :=
  { contractAddress := fun _ _ => 7
    abi :=
      { packGetTransactors := [0]
        packGetTransactorByKey := fun pk => [1, pk]
        unpackGetTransactors := fun _ =>
          .ok [⟨100, true, "Alice"⟩, ⟨200, false, "Bob"⟩]
        unpackGetTransactorByKey := fun _ => .ok ⟨100, true, "Alice"⟩ } }

def c7Evm : EvmView :=
  { getCode := fun _ => [96]
    staticCall := fun _ _ _ _ => .ok [5] }

/-- C7 witness: the two-tuple ("Alice"/"Bob") registry resolution. -/
theorem getPriorityTransactors_resolution_witness :
    GetPriorityTransactors c7Env 3 MainnetChainConfig c7Evm =
      (.ok [(100, ⟨"Alice", true⟩), (200, ⟨"Bob", false⟩)],
       [⟨7, 7, [0], MaxGasLimit⟩]) ∧
    alookup 100 (GetPriorityTransactors c7Env 3 MainnetChainConfig c7Evm).1.toOption.get! =
      some ⟨"Alice", true⟩ := by
  have h := (getPriorityTransactors_resolution c7Env 3 MainnetChainConfig c7Evm).2.2
    (by decide) (by decide)
  have h2 := (h.2 [5] rfl).2 [⟨100, true, "Alice"⟩, ⟨200, false, "Bob"⟩] rfl
  refine ⟨?_, ?_⟩
  · exact h2.1
  · rw [h2.1]
    rfl

/-- The scenario refuting C6 as stated: a nonzero registry address with no
deployed code (`getCode` empty everywhere), a realistic EVM for which a
call to a codeless account succeeds with empty output, and an ABI decoder
that fails on empty output. -/
def c6Env : RegistryEnv :=
  { contractAddress := fun _ _ => 7
    abi :=
      { packGetTransactors := [0]
        packGetTransactorByKey := fun pk => [1, pk]
        unpackGetTransactors := fun _ => .error "empty"
        unpackGetTransactorByKey := fun _ => .error "empty" } }

def c6Evm : EvmView :=
  { getCode := fun _ => []
    staticCall := fun _ _ _ _ => .ok [] }

/-- C6 counterexample: `getPriorityTransactorByKey` performs no
code-presence check — with no code deployed at the (nonzero) registry
address it still issues the bounded static call, contradicting the claim
that absent code yields NotFound without issuing a contract call.  (The
final result is still NotFound, via the folded decode failure.) -/
theorem getPriorityTransactorByKey_codeless_call_counterexample :
    c6Evm.getCode (c6Env.contractAddress MainnetChainConfig 5) = [] ∧
    (getPriorityTransactorByKey c6Env 5 42 MainnetChainConfig c6Evm).2 =
      [⟨7, 7, [1, 42], MaxGasLimit⟩] ∧
    (getPriorityTransactorByKey c6Env 5 42 MainnetChainConfig c6Evm).1.2 = false := by
  exact ⟨rfl, rfl, rfl⟩

/-- C6 amended: `getPriorityTransactorByKey` resolves the registry address
exactly like `GetPriorityTransactors` and a zero address yields NotFound
with no call issued, but it performs no code-presence check: for a nonzero
address it always issues the bounded static call (even when no code is
deployed), and any call failure or decode failure is folded into NotFound
rather than propagated. -/
theorem getPriorityTransactorByKey_resolution (env : RegistryEnv) (bn pk : Nat)
    (config : ChainConfig) (evm : EvmView) :
    (env.contractAddress config bn = 0 →
      getPriorityTransactorByKey env bn pk config evm = ((⟨"", false⟩, false), [])) ∧
    (env.contractAddress config bn ≠ 0 →
      (getPriorityTransactorByKey env bn pk config evm).2 =
        [⟨env.contractAddress config bn, env.contractAddress config bn,
          env.abi.packGetTransactorByKey pk, MaxGasLimit⟩] ∧
      (∀ e, evm.staticCall (env.contractAddress config bn)
          (env.contractAddress config bn) (env.abi.packGetTransactorByKey pk)
          MaxGasLimit = .error e →
        (getPriorityTransactorByKey env bn pk config evm).1 = (⟨"", false⟩, false)) ∧
      (∀ output, evm.staticCall (env.contractAddress config bn)
          (env.contractAddress config bn) (env.abi.packGetTransactorByKey pk)
          MaxGasLimit = .ok output →
        (∀ e, env.abi.unpackGetTransactorByKey output = .error e →
          (getPriorityTransactorByKey env bn pk config evm).1 = (⟨"", false⟩, false)) ∧
        (∀ meta, env.abi.unpackGetTransactorByKey output = .ok meta →
          (getPriorityTransactorByKey env bn pk config evm).1 =
            (⟨meta.name, meta.isGasPriceWaiver⟩, true)))) := by
  refine ⟨?_, ?_⟩
  · intro h
    simp [getPriorityTransactorByKey, h]
  · intro h
    refine ⟨?_, ?_, ?_⟩
    · simp only [getPriorityTransactorByKey, if_neg (by simpa using h)]
      cases hc : evm.staticCall (env.contractAddress config bn)
          (env.contractAddress config bn) (env.abi.packGetTransactorByKey pk)
          MaxGasLimit with
      | error e => simp [h, hc]
      | ok output =>
        cases hu : env.abi.unpackGetTransactorByKey output with
        | error e => simp [h, hc, hu]
        | ok meta => simp [h, hc, hu]
    · intro e he
      simp [getPriorityTransactorByKey, h, he]
    · intro output hout
      refine ⟨?_, ?_⟩
      · intro e he
        simp [getPriorityTransactorByKey, h, hout, he]
      · intro meta hmeta
        simp [getPriorityTransactorByKey, h, hout, hmeta]

/-- C6 witness: a successful single-key lookup. -/
theorem getPriorityTransactorByKey_resolution_witness :
    getPriorityTransactorByKey c7Env 3 100 MainnetChainConfig c7Evm =
      ((⟨"Alice", true⟩, true), [⟨7, 7, [1, 100], MaxGasLimit⟩]) := by
  have h := (getPriorityTransactorByKey_resolution c7Env 3 100 MainnetChainConfig c7Evm).2
    (by decide)
  have htr := h.1
  have hv := (h.2.2 [5] rfl).2 ⟨100, true, "Alice"⟩ rfl
  exact Prod.ext hv htr

/-! ### Claims about `Genesis.Commit` -/

theorem flushWrite_frame (db : DB) (root : Nat) :
    (flushWrite db root).canonicalHashes = db.canonicalHashes ∧
    (flushWrite db root).headers = db.headers ∧
    (flushWrite db root).headerNumbers = db.headerNumbers ∧
    (flushWrite db root).genesisStates = db.genesisStates ∧
    (flushWrite db root).tds = db.tds ∧
    (flushWrite db root).receipts = db.receipts ∧
    (flushWrite db root).headBlockHash = db.headBlockHash ∧
    (flushWrite db root).headFastBlockHash = db.headFastBlockHash ∧
    (flushWrite db root).headHeaderHash = db.headHeaderHash ∧
    (flushWrite db root).chainConfigs = db.chainConfigs := by
  unfold flushWrite
  split <;> exact ⟨rfl, rfl, rfl, rfl, rfl, rfl, rfl, rfl, rfl, rfl⟩

/-- On any error, `Genesis.Commit` has performed exactly the state-trie
flush of materialization and nothing else. -/
theorem commit_error_db (env : ParamsEnv) (g : Genesis) (db : DB) (e : CommitError)
    (h : (Genesis.commit env g db).1 = .error e) :
    (Genesis.commit env g db).2 = flushWrite db (flushRoot g.alloc) := by
  unfold Genesis.commit at h ⊢
  by_cases h1 : (g.toBlockWith db).1.number ≠ 0
  · simp only [if_pos h1]
    rfl
  · simp only [if_neg h1] at h ⊢
    cases hf : env.checkConfigForkOrder (g.config.getD AllEthashProtocolChanges) with
    | some e2 =>
      simp only [hf]
      rfl
    | none =>
      simp only [hf] at h ⊢
      by_cases h2 : (g.config.getD AllEthashProtocolChanges).clique.isSome ∧
          (g.toBlockWith db).1.extra.length < 32 + SignatureLength
      · simp only [if_pos h2]
        rfl
      · simp only [if_neg h2] at h
        exact absurd h (by simp)

/-- A height-one genesis with a nonempty allocation, against an empty
store. -/
def c1Genesis : Genesis :=
  { config := none
    nonce := 0
    timestamp := 0
    extraData := []
    gasLimit := 1
    difficulty := some 1
    mixhash := 0
    coinbase := 0
    alloc := [(3, { code := [], storage := [], balance := 5, nonce := 0 })]
    number := 1
    gasUsed := 0
    parentHash := 0
    baseFee := none }

def c1Env : ParamsEnv :=
  { checkConfigForkOrder := fun _ => none
    checkCompatible := fun _ _ _ => none }

def emptyDB : DB :=
  { canonicalHashes := []
    headers := []
    headerNumbers := []
    stateRoots := []
    genesisStates := []
    tds := []
    receipts := []
    headBlockHash := 0
    headFastBlockHash := 0
    headHeaderHash := 0
    chainConfigs := [] }

/-- C1 counterexample: a `Commit` that fails with the structural
`InvalidGenesisHeight` error nevertheless leaves the store changed — the
materialization step has already flushed the allocation state trie into
it, so the store's contents after the failed commit differ from its
contents before the call. -/
theorem commit_invalid_height_writes_counterexample :
    (Genesis.commit c1Env c1Genesis emptyDB).1 = .error .invalidGenesisHeight ∧
    (Genesis.commit c1Env c1Genesis emptyDB).2 ≠ emptyDB := by
  exact ⟨rfl, by decide⟩

/-- C1 amended: when `Commit` fails with a structural error
(`InvalidGenesisHeight`, `ForkOrderError` or `MissingSignerSet`), none of
the chain records — allocation blob, total difficulty, block, receipts,
canonical-hash index, head pointers, chain configuration — has been
written; the only store change is the state-trie flush already performed
by materialization. -/
theorem commit_structural_error_frame (env : ParamsEnv) (g : Genesis) (db : DB)
    (e : CommitError) (h : (Genesis.commit env g db).1 = .error e) :
    (Genesis.commit env g db).2.canonicalHashes = db.canonicalHashes ∧
    (Genesis.commit env g db).2.headers = db.headers ∧
    (Genesis.commit env g db).2.headerNumbers = db.headerNumbers ∧
    (Genesis.commit env g db).2.genesisStates = db.genesisStates ∧
    (Genesis.commit env g db).2.tds = db.tds ∧
    (Genesis.commit env g db).2.receipts = db.receipts ∧
    (Genesis.commit env g db).2.headBlockHash = db.headBlockHash ∧
    (Genesis.commit env g db).2.headFastBlockHash = db.headFastBlockHash ∧
    (Genesis.commit env g db).2.headHeaderHash = db.headHeaderHash ∧
    (Genesis.commit env g db).2.chainConfigs = db.chainConfigs ∧
    (Genesis.commit env g db).2.stateRoots =
      (flushWrite db (flushRoot g.alloc)).stateRoots := by
  rw [commit_error_db env g db e h]
  have hf := flushWrite_frame db (flushRoot g.alloc)
  exact ⟨hf.1, hf.2.1, hf.2.2.1, hf.2.2.2.1, hf.2.2.2.2.1, hf.2.2.2.2.2.1,
    hf.2.2.2.2.2.2.1, hf.2.2.2.2.2.2.2.1, hf.2.2.2.2.2.2.2.2.1,
    hf.2.2.2.2.2.2.2.2.2, rfl⟩

/-- C1 witness: the frame theorem at the height-one genesis. -/
theorem commit_structural_error_frame_witness :
    (Genesis.commit c1Env c1Genesis emptyDB).2.canonicalHashes =
        emptyDB.canonicalHashes ∧
      (Genesis.commit c1Env c1Genesis emptyDB).2.headers = emptyDB.headers ∧
      (Genesis.commit c1Env c1Genesis emptyDB).2.headerNumbers = emptyDB.headerNumbers ∧
      (Genesis.commit c1Env c1Genesis emptyDB).2.genesisStates = emptyDB.genesisStates ∧
      (Genesis.commit c1Env c1Genesis emptyDB).2.tds = emptyDB.tds ∧
      (Genesis.commit c1Env c1Genesis emptyDB).2.receipts = emptyDB.receipts ∧
      (Genesis.commit c1Env c1Genesis emptyDB).2.headBlockHash =
        emptyDB.headBlockHash ∧
      (Genesis.commit c1Env c1Genesis emptyDB).2.headFastBlockHash =
        emptyDB.headFastBlockHash ∧
      (Genesis.commit c1Env c1Genesis emptyDB).2.headHeaderHash =
        emptyDB.headHeaderHash ∧
      (Genesis.commit c1Env c1Genesis emptyDB).2.chainConfigs = emptyDB.chainConfigs ∧
      (Genesis.commit c1Env c1Genesis emptyDB).2.stateRoots =
        (flushWrite emptyDB (flushRoot c1Genesis.alloc)).stateRoots :=
  commit_structural_error_frame c1Env c1Genesis emptyDB .invalidGenesisHeight rfl

/-! ### Claims about `PriorityTx.copy` -/

/-- The big-integer fields of a transaction, in a fixed order. -/
def bigFields (tx : PriorityTx) : List (Option Nat) :=
  [tx.chainID, tx.gasTipCap, tx.gasFeeCap, tx.value, tx.v, tx.r, tx.s,
   tx.priorityV, tx.priorityR, tx.priorityS]

/-- The observable values of the big-integer fields under a heap. -/
def bigVals (h : Heap) (tx : PriorityTx) : List (Option Int) :=
  (bigFields tx).map (intVal h)

/-- The heap addresses held by the non-nil big-integer fields. -/
def bigAddrs (tx : PriorityTx) : List Nat :=
  (bigFields tx).filterMap id

theorem derefInt_append_lt (h cells : Heap) {a : Nat} (ha : a < h.length) :
    derefInt (h ++ cells) a = derefInt h a := by
  unfold derefInt
  rw [List.get?_append ha]

theorem derefInt_append_offset (h cells : Heap) (k : Nat) :
    derefInt (h ++ cells) (h.length + k) = derefInt cells k := by
  unfold derefInt
  rw [List.get?_append_right (Nat.le_add_right _ _)]
  simp

theorem derefBytes_append_len (h cells : Heap) :
    derefBytes (h ++ cells) h.length = derefBytes cells 0 := by
  unfold derefBytes
  rw [List.get?_append_right (Nat.le_refl _)]
  simp

theorem derefAccessList_append_offset (h cells : Heap) (k : Nat) :
    derefAccessList (h ++ cells) (h.length + k) = derefAccessList cells k := by
  unfold derefAccessList
  rw [List.get?_append_right (Nat.le_add_right _ _)]
  simp

theorem derefInt_set_ne (h : Heap) {a b : Nat} (hab : b ≠ a) (w : Int) :
    derefInt (setIntCell h a w) b = derefInt h b := by
  unfold derefInt setIntCell
  rw [List.get?_set_ne _ _ (fun e => hab e.symm)]

/-- Mutating a cell that none of the transaction's fields point to leaves
every observable field value unchanged. -/
theorem bigVals_set_ne (tx : PriorityTx) (h : Heap) (a : Nat) (w : Int)
    (ha : ∀ b ∈ bigAddrs tx, b ≠ a) :
    bigVals (setIntCell h a w) tx = bigVals h tx := by
  unfold bigVals
  apply List.map_congr_left
  intro o ho
  cases o with
  | none => rfl
  | some b =>
    have hb : b ∈ bigAddrs tx := List.mem_filterMap.mpr ⟨some b, ho, rfl⟩
    simp [intVal, derefInt_set_ne h (ha b hb) w]

/-- Extending the heap leaves the observable field values unchanged when
every field address is valid. -/
theorem bigVals_append (tx : PriorityTx) (h cells : Heap)
    (hv : ∀ b ∈ bigAddrs tx, b < h.length) :
    bigVals (h ++ cells) tx = bigVals h tx := by
  unfold bigVals
  apply List.map_congr_left
  intro o ho
  cases o with
  | none => rfl
  | some b =>
    have hb : b ∈ bigAddrs tx := List.mem_filterMap.mpr ⟨some b, ho, rfl⟩
    simp [intVal, derefInt_append_lt h cells (hv b hb)]

/-- C9 counterexample: for a transaction whose ChainID pointer is nil, the
copy's ChainID is a freshly allocated zero-valued integer, so its value
(`some 0`) differs from the source's (`none`) — "every field is equal in
value to the source's" fails on nil big-integer fields. -/
def c9NilTx : PriorityTx :=
  { chainID := none, nonce := 0, gasTipCap := none, gasFeeCap := none, gas := 0
    toAddr := none, value := none, data := 0, accessList := 1
    v := none, r := none, s := none
    priorityV := none, priorityR := none, priorityS := none }

def c9NilHeap : Heap := [.bytesCell [], .accessListCell []]

/-- C9 counterexample: the copy of a nil ChainID is a fresh zero, not nil. -/
theorem priorityTx_copy_nil_counterexample :
    intVal c9NilHeap c9NilTx.chainID = none ∧
    intVal (c9NilTx.copy c9NilHeap).2 (c9NilTx.copy c9NilHeap).1.chainID = some 0 := by
  exact ⟨rfl, rfl⟩

/-- C9 amended: `copy` preserves the value of every non-nil big-integer
field (a nil field becomes a freshly allocated zero-valued integer, per
`copyVal`), copies nonce, gas, destination, payload bytes and access list
by value, and allocates storage fully independent of the source: mutating
any cell addressed by the original leaves every field value of the copy
unchanged, and mutating any cell addressed by the copy leaves every field
value of the original unchanged. -/
theorem priorityTx_copy_isolation (tx : PriorityTx) (h : Heap)
    (hv : ∀ a ∈ bigAddrs tx, a < h.length) :
    (∀ a : Nat, copyVal h (some a) = derefInt h a) ∧
    copyVal h none = 0 ∧
    bigVals (tx.copy h).2 (tx.copy h).1 =
      (bigFields tx).map (fun o => some (copyVal h o)) ∧
    (tx.copy h).1.nonce = tx.nonce ∧
    (tx.copy h).1.gas = tx.gas ∧
    (tx.copy h).1.toAddr = tx.toAddr ∧
    derefBytes (tx.copy h).2 (tx.copy h).1.data = derefBytes h tx.data ∧
    derefAccessList (tx.copy h).2 (tx.copy h).1.accessList =
      derefAccessList h tx.accessList ∧
    bigVals (tx.copy h).2 tx = bigVals h tx ∧
    (∀ a ∈ bigAddrs tx, ∀ w : Int,
      bigVals (setIntCell (tx.copy h).2 a w) (tx.copy h).1 =
        bigVals (tx.copy h).2 (tx.copy h).1) ∧
    (∀ a ∈ bigAddrs (tx.copy h).1, ∀ w : Int,
      bigVals (setIntCell (tx.copy h).2 a w) tx = bigVals (tx.copy h).2 tx) := by
  refine ⟨fun a => rfl, rfl, ?_, rfl, rfl, rfl, ?_, ?_, ?_, ?_, ?_⟩
  · show bigVals _ _ = _
    simp only [PriorityTx.copy, bigVals, bigFields, List.map, intVal,
      derefInt_append_offset]
    rfl
  · show derefBytes _ _ = _
    simp only [PriorityTx.copy, derefBytes_append_len]
    rfl
  · show derefAccessList _ _ = _
    simp only [PriorityTx.copy, derefAccessList_append_offset]
    rfl
  · exact bigVals_append tx h _ hv
  · intro a ha w
    apply bigVals_set_ne
    intro b hb
    have haln : a < h.length := hv a ha
    simp only [PriorityTx.copy, bigAddrs, bigFields] at hb
    fin_cases hb <;> omega
  · intro a ha w
    have hge : h.length + 2 ≤ a := by
      simp only [PriorityTx.copy, bigAddrs, bigFields] at ha
      fin_cases ha <;> omega
    apply bigVals_set_ne
    intro b hb
    have : b < h.length := hv b hb
    omega

def c9Tx : PriorityTx :=
  { chainID := some 2, nonce := 1, gasTipCap := some 3, gasFeeCap := some 4, gas := 9
    toAddr := some 77, value := some 5, data := 0, accessList := 1
    v := some 6, r := some 7, s := some 8
    priorityV := some 9, priorityR := some 10, priorityS := some 11 }

def c9Heap : Heap :=
  [.bytesCell [1, 2], .accessListCell [(3, [4])], .intCell 100, .intCell 101,
   .intCell 102, .intCell 103, .intCell 104, .intCell 105, .intCell 106,
   .intCell 107, .intCell 108, .intCell 109]

/-- C9 witness: the isolation theorem at a fully allocated transaction. -/
theorem priorityTx_copy_isolation_witness :
    bigVals (c9Tx.copy c9Heap).2 (c9Tx.copy c9Heap).1 =
      (bigFields c9Tx).map (fun o => some (copyVal c9Heap o)) ∧
    bigVals (setIntCell (c9Tx.copy c9Heap).2 5 42) (c9Tx.copy c9Heap).1 =
      bigVals (c9Tx.copy c9Heap).2 (c9Tx.copy c9Heap).1 :=
  ⟨(priorityTx_copy_isolation c9Tx c9Heap (by decide)).2.2.1,
   (priorityTx_copy_isolation c9Tx c9Heap (by decide)).2.2.2.2.2.2.2.2.2.1
     5 (by decide) 42⟩

/-! ### Claims about the bootstrap reconciler -/

/-- C3: with a stored canonical genesis whose recomputed hash disagrees
with a supplied (or, in the unreadable-state branch, supplied-or-default)
specification, reconciliation returns `GenesisMismatchError` carrying
exactly the stored and the newly computed hash, and leaves the store
untouched. -/
theorem setup_mismatch_no_write (env : ParamsEnv) (genesis : Option Genesis)
    (oa ot : Option Int) (db : DB) (hdr : Header)
    (hnc : genesis.map Genesis.config ≠ some none)
    (hst : readCanonicalHash db 0 ≠ 0)
    (hh : readHeader db (readCanonicalHash db 0) = some hdr) :
    (hdr.root ∉ db.stateRoots →
      blockHash (genesis.getD DefaultGenesisBlock).toBlock ≠ readCanonicalHash db 0 →
      setupGenesisBlockWithOverride env genesis oa ot db =
        some (((genesis.getD DefaultGenesisBlock).config,
               blockHash (genesis.getD DefaultGenesisBlock).toBlock,
               some (.mismatch (readCanonicalHash db 0)
                 (blockHash (genesis.getD DefaultGenesisBlock).toBlock))), db)) ∧
    (hdr.root ∈ db.stateRoots → ∀ g, genesis = some g →
      blockHash g.toBlock ≠ readCanonicalHash db 0 →
      setupGenesisBlockWithOverride env genesis oa ot db =
        some ((g.config, blockHash g.toBlock,
               some (.mismatch (readCanonicalHash db 0) (blockHash g.toBlock))), db)) := by
  constructor
  · intro hroot hne
    simp only [setupGenesisBlockWithOverride, if_neg hnc, if_neg hst, hh,
      if_pos hroot, if_pos hne]
  · intro hroot g hg hne
    subst hg
    simp only [setupGenesisBlockWithOverride, if_neg hnc, if_neg hst, hh,
      if_neg (not_not_intro hroot), Option.getD_some, if_pos hne]

/-- A stored genesis header whose state root is 5. -/
def cHeader : Header :=
  { number := 0, nonce := 0, time := 0, parentHash := 0, extra := [], gasLimit := 1
    gasUsed := 0, baseFee := none, difficulty := some 1, mixDigest := 0, coinbase := 0
    root := 5 }

/-- A private chain configuration distinct from every protocol default. -/
def cfgPrivate : ChainConfig := ⟨none, none, some 0, none, 50⟩

/-- A supplied spec whose recomputed hash will not match the stored one. -/
def c3Genesis : Genesis :=
  { config := some cfgPrivate
    nonce := 0
    timestamp := 0
    extraData := []
    gasLimit := 9
    difficulty := some 1
    mixhash := 0
    coinbase := 0
    alloc := []
    number := 0
    gasUsed := 0
    parentHash := 0
    baseFee := none }

def c3DBHealthy : DB :=
  { canonicalHashes := [(0, 77)]
    headers := [(77, cHeader)]
    headerNumbers := [(77, 3)]
    stateRoots := [5]
    genesisStates := []
    tds := []
    receipts := []
    headBlockHash := 77
    headFastBlockHash := 77
    headHeaderHash := 77
    chainConfigs := [(77, cfgPrivate)] }

def c3DBUnreadable : DB := { c3DBHealthy with stateRoots := [] }

/-- C3 witness: both mismatch branches at concrete stores. -/
theorem setup_mismatch_no_write_witness :
    setupGenesisBlockWithOverride c1Env (some c3Genesis) none none c3DBHealthy =
      some ((c3Genesis.config, blockHash c3Genesis.toBlock,
             some (.mismatch (readCanonicalHash c3DBHealthy 0)
               (blockHash c3Genesis.toBlock))), c3DBHealthy) ∧
    setupGenesisBlockWithOverride c1Env none none none c3DBUnreadable =
      some ((DefaultGenesisBlock.config, blockHash DefaultGenesisBlock.toBlock,
             some (.mismatch (readCanonicalHash c3DBUnreadable 0)
               (blockHash DefaultGenesisBlock.toBlock))), c3DBUnreadable) := by
  constructor
  · exact (setup_mismatch_no_write c1Env (some c3Genesis) none none c3DBHealthy cHeader
      (by decide) (by decide) (by decide)).2 (by decide) c3Genesis rfl (by decide)
  · exact (setup_mismatch_no_write c1Env none none none c3DBUnreadable cHeader
      (by decide) (by decide) (by decide)).1 (by decide) (by decide)

/-- C4 counterexample: the compatibility check reports an incompatibility
whose rewind target is zero while the head height is 5 (nonzero); the
claim demands a returned `ConfigCompatibilityError` and no overwrite, but
the code swallows the error and persists the candidate configuration. -/
def c4Env : ParamsEnv :=
  { checkConfigForkOrder := fun _ => none
    checkCompatible := fun _ _ _ => some ⟨0⟩ }

def c4DB : DB :=
  { canonicalHashes := [(0, 77)]
    headers := [(77, cHeader)]
    headerNumbers := [(77, 5)]
    stateRoots := [5]
    genesisStates := []
    tds := []
    receipts := []
    headBlockHash := 77
    headFastBlockHash := 77
    headHeaderHash := 77
    chainConfigs := [(77, cfgPrivate)] }

/-- C4 counterexample: head height 5, reported rewind target 0 — the
error is swallowed and the candidate configuration persisted. -/
theorem setup_compat_zero_rewind_counterexample :
    c4Env.checkCompatible cfgPrivate { cfgPrivate with arrowGlacierBlock := some 42 } 5 =
      some ⟨0⟩ ∧
    alookup c4DB.headHeaderHash c4DB.headerNumbers = some 5 ∧
    setupGenesisBlockWithOverride c4Env none (some 42) none c4DB =
      some ((some { cfgPrivate with arrowGlacierBlock := some 42 }, 77, none),
        { c4DB with
            chainConfigs := [(77, { cfgPrivate with arrowGlacierBlock := some 42 })] }) := by
  exact ⟨rfl, rfl, by decide⟩

/-- C4 amended: in the healthy-stored-genesis state, an incompatibility
reported by the compatibility check at head height `H` is returned as a
`ConfigCompatibilityError` with no write only when `H` is nonzero AND the
error's rewind target is nonzero; when `H` is zero (and likewise when the
rewind target is zero) the error is silently accepted and the candidate
configuration is persisted and returned. -/
theorem setup_compat_rewind (env : ParamsEnv) (genesis : Option Genesis)
    (oa ot : Option Int) (db : DB) (hdr : Header) (cfg0 storedcfg : ChainConfig)
    (height : Nat) (cerr : ConfigCompatError)
    (hnc : genesis.map Genesis.config ≠ some none)
    (hst : readCanonicalHash db 0 ≠ 0)
    (hh : readHeader db (readCanonicalHash db 0) = some hdr)
    (hr : hdr.root ∈ db.stateRoots)
    (hmatch : ∀ g, genesis = some g → blockHash g.toBlock = readCanonicalHash db 0)
    (hcfg0 : configOrDefault genesis (readCanonicalHash db 0) = some cfg0)
    (hfork : env.checkConfigForkOrder (overridden cfg0 oa ot) = none)
    (hsc : alookup (readCanonicalHash db 0) db.chainConfigs = some storedcfg)
    (hht : alookup db.headHeaderHash db.headerNumbers = some height)
    (hcompat : env.checkCompatible storedcfg
      (if genesis = none ∧ readCanonicalHash db 0 ≠ MainnetGenesisHash then
        overridden storedcfg oa ot else overridden cfg0 oa ot) height = some cerr) :
    (height ≠ 0 → cerr.rewindTo ≠ 0 →
      setupGenesisBlockWithOverride env genesis oa ot db =
        some ((some (if genesis = none ∧ readCanonicalHash db 0 ≠ MainnetGenesisHash then
                 overridden storedcfg oa ot else overridden cfg0 oa ot),
               readCanonicalHash db 0, some (.compat cerr)), db)) ∧
    (height = 0 →
      setupGenesisBlockWithOverride env genesis oa ot db =
        some ((some (if genesis = none ∧ readCanonicalHash db 0 ≠ MainnetGenesisHash then
                 overridden storedcfg oa ot else overridden cfg0 oa ot),
               readCanonicalHash db 0, none),
          { db with chainConfigs :=
              (ainsert (readCanonicalHash db 0)
                (if genesis = none ∧ readCanonicalHash db 0 ≠ MainnetGenesisHash then
                  overridden storedcfg oa ot else overridden cfg0 oa ot)
                db.chainConfigs) })) := by
  constructor
  · intro hne hrw
    cases hg : genesis with
    | none =>
      subst hg
      have hcompat2 : env.checkCompatible storedcfg
          (if readCanonicalHash db 0 ≠ MainnetGenesisHash then
            overridden storedcfg oa ot else overridden cfg0 oa ot) height = some cerr := by
        simpa using hcompat
      simp only [setupGenesisBlockWithOverride, if_neg hnc, if_neg hst, hh,
        if_neg (not_not_intro hr), hcfg0, hfork, hsc, hht, eq_self_iff_true, true_and,
        hcompat2, if_pos (And.intro hne hrw)]
    | some g =>
      subst hg
      have hcompat2 : env.checkCompatible storedcfg (overridden cfg0 oa ot) height =
          some cerr := by
        simpa using hcompat
      simp only [setupGenesisBlockWithOverride, if_neg hnc, if_neg hst, hh,
        if_neg (not_not_intro hr), if_neg (not_not_intro (hmatch g rfl)),
        hcfg0, hfork, hsc, hht, Option.some_ne_none, false_and, if_false,
        hcompat2, if_pos (And.intro hne hrw)]
  · intro h0
    subst h0
    cases hg : genesis with
    | none =>
      subst hg
      have hcompat2 : env.checkCompatible storedcfg
          (if readCanonicalHash db 0 ≠ MainnetGenesisHash then
            overridden storedcfg oa ot else overridden cfg0 oa ot) 0 = some cerr := by
        simpa using hcompat
      simp only [setupGenesisBlockWithOverride, if_neg hnc, if_neg hst, hh,
        if_neg (not_not_intro hr), hcfg0, hfork, hsc, hht, eq_self_iff_true, true_and,
        hcompat2, if_neg (by simp : ¬((0 : Nat) ≠ 0 ∧ cerr.rewindTo ≠ 0))]
    | some g =>
      subst hg
      have hcompat2 : env.checkCompatible storedcfg (overridden cfg0 oa ot) 0 =
          some cerr := by
        simpa using hcompat
      simp only [setupGenesisBlockWithOverride, if_neg hnc, if_neg hst, hh,
        if_neg (not_not_intro hr), if_neg (not_not_intro (hmatch g rfl)),
        hcfg0, hfork, hsc, hht, Option.some_ne_none, false_and, if_false,
        hcompat2, if_neg (by simp : ¬((0 : Nat) ≠ 0 ∧ cerr.rewindTo ≠ 0))]

/-- An environment whose compatibility check reports rewind target 9. -/
def c4EnvRw : ParamsEnv :=
  { checkConfigForkOrder := fun _ => none
    checkCompatible := fun _ _ _ => some ⟨9⟩ }

/-- C4 witness: a nonzero rewind target at nonzero head height is
returned as a compatibility error with no write. -/
theorem setup_compat_rewind_witness :
    setupGenesisBlockWithOverride c4EnvRw none none none c4DB =
      some ((some (overridden cfgPrivate none none), 77, some (.compat ⟨9⟩)), c4DB) :=
  (setup_compat_rewind c4EnvRw none none none c4DB cHeader AllEthashProtocolChanges
    cfgPrivate 5 ⟨9⟩ (by decide) (by decide) (by decide) (by decide)
    (fun g hg => by cases hg) (by decide) rfl (by decide) (by decide) rfl).1
    (by decide) (by decide)

/-- C5 amended: in the healthy-stored-genesis state with no supplied
spec, the defaulted candidate is discarded in favour of the stored
configuration (with only the explicit overrides re-applied) whenever the
stored hash differs from the MAINNET genesis hash — stagenet and testnet
hashes are treated like private networks here; the defaulted candidate is
kept only when the stored hash is the mainnet hash. -/
theorem setup_private_network_config (env : ParamsEnv) (oa ot : Option Int) (db : DB)
    (hdr : Header) (cfg0 storedcfg : ChainConfig) (height : Nat)
    (hst : readCanonicalHash db 0 ≠ 0)
    (hh : readHeader db (readCanonicalHash db 0) = some hdr)
    (hr : hdr.root ∈ db.stateRoots)
    (hcfg0 : configOrDefault none (readCanonicalHash db 0) = some cfg0)
    (hfork : env.checkConfigForkOrder (overridden cfg0 oa ot) = none)
    (hsc : alookup (readCanonicalHash db 0) db.chainConfigs = some storedcfg)
    (hht : alookup db.headHeaderHash db.headerNumbers = some height) :
    (readCanonicalHash db 0 ≠ MainnetGenesisHash →
      env.checkCompatible storedcfg (overridden storedcfg oa ot) height = none →
      setupGenesisBlockWithOverride env none oa ot db =
        some ((some (overridden storedcfg oa ot), readCanonicalHash db 0, none),
          { db with chainConfigs :=
              (ainsert (readCanonicalHash db 0) (overridden storedcfg oa ot)
                db.chainConfigs) })) ∧
    (readCanonicalHash db 0 = MainnetGenesisHash →
      env.checkCompatible storedcfg (overridden cfg0 oa ot) height = none →
      setupGenesisBlockWithOverride env none oa ot db =
        some ((some (overridden cfg0 oa ot), readCanonicalHash db 0, none),
          { db with chainConfigs :=
              (ainsert (readCanonicalHash db 0) (overridden cfg0 oa ot)
                db.chainConfigs) })) := by
  constructor
  · intro hne hcompat
    simp only [setupGenesisBlockWithOverride,
      if_neg (by simp : ¬(Option.map Genesis.config none = some none)),
      if_neg hst, hh, if_neg (not_not_intro hr), hcfg0, hfork, hsc, hht,
      eq_self_iff_true, true_and, if_pos hne, hcompat]
  · intro heq hcompat
    simp only [setupGenesisBlockWithOverride,
      if_neg (by simp : ¬(Option.map Genesis.config none = some none)),
      if_neg hst, hh, if_neg (not_not_intro hr), hcfg0, hfork, hsc, hht,
      eq_self_iff_true, true_and, if_neg (not_not_intro heq), hcompat]

def c5DB : DB :=
  { canonicalHashes := [(0, StagenetGenesisHash)]
    headers := [(StagenetGenesisHash, cHeader)]
    headerNumbers := [(StagenetGenesisHash, 0)]
    stateRoots := [5]
    genesisStates := []
    tds := []
    receipts := []
    headBlockHash := StagenetGenesisHash
    headFastBlockHash := StagenetGenesisHash
    headHeaderHash := StagenetGenesisHash
    chainConfigs := [(StagenetGenesisHash, cfgPrivate)] }

/-- C5 counterexample: with no supplied spec and the stored hash equal to
the known public-network STAGENET genesis hash, the defaulted candidate
(the stagenet protocol configuration) is nevertheless discarded and the
stored configuration is returned — the code treats every non-mainnet hash
as a private network, contradicting the claim's "known public-network
hash (mainnet, stagenet, or testnet)". -/
theorem setup_stagenet_discard_counterexample :
    configOrDefault none StagenetGenesisHash = some StagenetChainConfig ∧
    cfgPrivate ≠ StagenetChainConfig ∧
    setupGenesisBlockWithOverride c1Env none none none c5DB =
      some ((some cfgPrivate, StagenetGenesisHash, none), c5DB) := by
  exact ⟨rfl, by decide, by decide⟩

/-- C5 witness: the discard branch at the concrete stagenet store. -/
theorem setup_private_network_config_witness :
    setupGenesisBlockWithOverride c1Env none none none c5DB =
      some ((some (overridden cfgPrivate none none), StagenetGenesisHash, none),
        { c5DB with chainConfigs :=
            (ainsert StagenetGenesisHash (overridden cfgPrivate none none)
              c5DB.chainConfigs) }) :=
  (setup_private_network_config c1Env none none c5DB cHeader StagenetChainConfig
    cfgPrivate 0 (by decide) (by decide) (by decide) (by decide) rfl (by decide)
    (by decide)).1 (by decide) rfl

end ElectroneumSC
